import Mathlib

/-!
Verification of the 2-d live-result backend (Deno/Hono, `main.ts`, `db.ts`).

This file shallowly embeds the parts of the code that the design-spec claims
talk about: the JavaScript number semantics used by the credit-amount
validation, the native SHA-256 password hashing of `main.ts` and the salted
variant of `db.ts`, the JWT issue/verify round trip, the Deno-KV-backed
registration / login / fill-credit handlers, the WebSocket broadcast hub, and
an interleaving model of concurrent credit operations.

Machine integers are modelled as `Nat` with explicit `% 2 ^ 32` where 32-bit
wrap-around matters; JavaScript numbers relevant to the claims are modelled as
rationals extended with NaN and the two infinities.
-/

/-! ## JavaScript number semantics

The credit amount arrives from JSON as an arbitrary JavaScript value.  The
validation in `main.ts` is `typeof amount is not number || amount <= 0`, so we
model a JS number as a rational extended with NaN and the infinities, and a
request value as either a number or a non-number. -/

/-- A JavaScript number: NaN, positive or negative infinity, or a finite value
(modelled as a rational; float rounding is irrelevant to the claims). -/
inductive JSNum where
  | nan : JSNum
  | posInf : JSNum
  | negInf : JSNum
  | finite (q : ℚ) : JSNum
deriving DecidableEq

/-- JavaScript `x <= 0`: false whenever `x` is NaN, false for `+Infinity`,
true for `-Infinity`, and the rational comparison otherwise. -/
def JSNum.leZero : JSNum → Bool
  | .nan => false
  | .posInf => false
  | .negInf => true
  | .finite q => q ≤ 0

/-- JavaScript `+` on numbers: NaN absorbs, opposite infinities give NaN,
an infinity otherwise dominates, finite values add as rationals. -/
def JSNum.add : JSNum → JSNum → JSNum
  | .nan, _ => .nan
  | _, .nan => .nan
  | .posInf, .negInf => .nan
  | .negInf, .posInf => .nan
  | .posInf, _ => .posInf
  | _, .posInf => .posInf
  | .negInf, _ => .negInf
  | _, .negInf => .negInf
  | .finite a, .finite b => .finite (a + b)

/-- A JSON request value as seen by `typeof amount is not number`: either a
JavaScript number or some non-number value (string, null, missing, ...). -/
inductive ReqVal where
  | num (n : JSNum) : ReqVal
  | nonNumber : ReqVal
deriving DecidableEq

/-! ## SHA-256 (FIPS 180-4) over byte lists

`main.ts` hashes passwords with `crypto.subtle.digest("SHA-256", ...)`; we
implement SHA-256 executably over `List Nat` (each element a byte), with all
32-bit words kept as `Nat` reduced modulo `2 ^ 32`. -/

/-- Right rotation of a 32-bit word held in a `Nat`. -/
def rotr32 (n x : Nat) : Nat := ((x >>> n) ||| (x <<< (32 - n))) % 2 ^ 32

/-- Function `Ch(x,y,z)` of FIPS 180-4. -/
def shaCh (x y z : Nat) : Nat := (x &&& y) ^^^ ((2 ^ 32 - 1 - x) &&& z)

/-- Function `Maj(x,y,z)` of FIPS 180-4. -/
def shaMaj (x y z : Nat) : Nat := (x &&& y) ^^^ (x &&& z) ^^^ (y &&& z)

/-- Big sigma 0. -/
def bsig0 (x : Nat) : Nat := rotr32 2 x ^^^ rotr32 13 x ^^^ rotr32 22 x

/-- Big sigma 1. -/
def bsig1 (x : Nat) : Nat := rotr32 6 x ^^^ rotr32 11 x ^^^ rotr32 25 x

/-- Small sigma 0. -/
def ssig0 (x : Nat) : Nat := rotr32 7 x ^^^ rotr32 18 x ^^^ (x >>> 3)

/-- Small sigma 1. -/
def ssig1 (x : Nat) : Nat := rotr32 17 x ^^^ rotr32 19 x ^^^ (x >>> 10)

/-- The 64 SHA-256 round constants. -/
def shaK : List Nat :=
  [0x428A2F98, 0x71374491, 0xB5C0FBCF, 0xE9B5DBA5, 0x3956C25B, 0x59F111F1, 0x923F82A4, 0xAB1C5ED5,
   0xD807AA98, 0x12835B01, 0x243185BE, 0x550C7DC3, 0x72BE5D74, 0x80DEB1FE, 0x9BDC06A7, 0xC19BF174,
   0xE49B69C1, 0xEFBE4786, 0x0FC19DC6, 0x240CA1CC, 0x2DE92C6F, 0x4A7484AA, 0x5CB0A9DC, 0x76F988DA,
   0x983E5152, 0xA831C66D, 0xB00327C8, 0xBF597FC7, 0xC6E00BF3, 0xD5A79147, 0x06CA6351, 0x14292967,
   0x27B70A85, 0x2E1B2138, 0x4D2C6DFC, 0x53380D13, 0x650A7354, 0x766A0ABB, 0x81C2C92E, 0x92722C85,
   0xA2BFE8A1, 0xA81A664B, 0xC24B8B70, 0xC76C51A3, 0xD192E819, 0xD6990624, 0xF40E3585, 0x106AA070,
   0x19A4C116, 0x1E376C08, 0x2748774C, 0x34B0BCB5, 0x391C0CB3, 0x4ED8AA4A, 0x5B9CCA4F, 0x682E6FF3,
   0x748F82EE, 0x78A5636F, 0x84C87814, 0x8CC70208, 0x90BEFFFA, 0xA4506CEB, 0xBEF9A3F7, 0xC67178F2]

/-- The eight SHA-256 initial hash values. -/
def shaH0 : List Nat :=
  [0x6A09E667, 0xBB67AE85, 0x3C6EF372, 0xA54FF53A, 0x510E527F, 0x9B05688C, 0x1F83D9AB, 0x5BE0CD19]

/-- Pack big-endian groups of four bytes into 32-bit words. -/
def bytesToWords : List Nat → List Nat
  | b0 :: b1 :: b2 :: b3 :: rest =>
      ((b0 <<< 24) ||| (b1 <<< 16) ||| (b2 <<< 8) ||| b3) :: bytesToWords rest
  | _ => []

/-- Big-endian 4-byte serialization of a 32-bit word. -/
def wordToBytes (w : Nat) : List Nat :=
  [(w >>> 24) &&& 0xff, (w >>> 16) &&& 0xff, (w >>> 8) &&& 0xff, w &&& 0xff]

/-- Big-endian 8-byte serialization of the 64-bit message bit length. -/
def lenToBytes (n : Nat) : List Nat :=
  [(n >>> 56) &&& 0xff, (n >>> 48) &&& 0xff, (n >>> 40) &&& 0xff, (n >>> 32) &&& 0xff,
   (n >>> 24) &&& 0xff, (n >>> 16) &&& 0xff, (n >>> 8) &&& 0xff, n &&& 0xff]

/-- SHA-256 padding: append `0x80`, zeros to 56 mod 64 bytes, then the 64-bit
big-endian bit length. -/
def shaPad (msg : List Nat) : List Nat :=
  msg ++ 0x80 :: List.replicate ((119 - msg.length % 64) % 64) 0 ++ lenToBytes (msg.length * 8)

/-- Extend the 16 message-schedule words to 64 (48 extension steps). -/
def wextend : Nat → List Nat → List Nat
  | 0, w => w
  | n + 1, w =>
      let i := w.length
      wextend n (w ++ [(ssig1 (w.getD (i - 2) 0) + w.getD (i - 7) 0 +
        ssig0 (w.getD (i - 15) 0) + w.getD (i - 16) 0) % 2 ^ 32])

/-- Working state of the SHA-256 compression function. -/
structure SHAState where
  a : Nat
  b : Nat
  c : Nat
  d : Nat
  e : Nat
  f : Nat
  g : Nat
  h : Nat
deriving DecidableEq

/-- One compression round, consuming one schedule word and one constant. -/
def shaRound (s : SHAState) (kw : Nat × Nat) : SHAState :=
  let t1 := (s.h + bsig1 s.e + shaCh s.e s.f s.g + kw.1 + kw.2) % 2 ^ 32
  let t2 := (bsig0 s.a + shaMaj s.a s.b s.c) % 2 ^ 32
  ⟨(t1 + t2) % 2 ^ 32, s.a, s.b, s.c, (s.d + t1) % 2 ^ 32, s.e, s.f, s.g⟩

/-- Compress one 64-byte block into the running hash value (a list of eight
32-bit words). -/
def shaCompress (hs : List Nat) (block : List Nat) : List Nat :=
  let w := wextend 48 (bytesToWords block)
  let s0 : SHAState :=
    ⟨hs.getD 0 0, hs.getD 1 0, hs.getD 2 0, hs.getD 3 0,
     hs.getD 4 0, hs.getD 5 0, hs.getD 6 0, hs.getD 7 0⟩
  let s := (shaK.zip w).foldl shaRound s0
  [(s0.a + s.a) % 2 ^ 32, (s0.b + s.b) % 2 ^ 32, (s0.c + s.c) % 2 ^ 32, (s0.d + s.d) % 2 ^ 32,
   (s0.e + s.e) % 2 ^ 32, (s0.f + s.f) % 2 ^ 32, (s0.g + s.g) % 2 ^ 32, (s0.h + s.h) % 2 ^ 32]

/-- Accumulator-based splitting of a byte list into 64-byte chunks; `acc`
holds the bytes of the current partial chunk in reverse order. -/
def chunks64Aux : List Nat → List Nat → List (List Nat)
  | [], acc => if acc.isEmpty then [] else [acc.reverse]
  | b :: rest, acc =>
      if acc.length = 63 then (b :: acc).reverse :: chunks64Aux rest []
      else chunks64Aux rest (b :: acc)

/-- Split a byte list into 64-byte chunks. -/
def chunks64 (l : List Nat) : List (List Nat) := chunks64Aux l []

/-- SHA-256 digest of a byte list, as a list of 32 bytes. -/
def sha256 (msg : List Nat) : List Nat :=
  ((chunks64 (shaPad msg)).foldl shaCompress shaH0).flatMap wordToBytes

/-! ## Byte encodings used by the two hashing functions -/

/-- UTF-8 encoding of one character, as `TextEncoder` produces. -/
def utf8Char (c : Char) : List Nat :=
  let n := c.toNat
  if n < 0x80 then [n]
  else if n < 0x800 then [0xc0 ||| (n >>> 6), 0x80 ||| (n &&& 0x3f)]
  else if n < 0x10000 then
    [0xe0 ||| (n >>> 12), 0x80 ||| ((n >>> 6) &&& 0x3f), 0x80 ||| (n &&& 0x3f)]
  else
    [0xf0 ||| (n >>> 18), 0x80 ||| ((n >>> 12) &&& 0x3f),
     0x80 ||| ((n >>> 6) &&& 0x3f), 0x80 ||| (n &&& 0x3f)]

/-- UTF-8 encoding of a string (`new TextEncoder().encode(...)`). -/
def utf8Encode (s : String) : List Nat := s.data.flatMap utf8Char

/-- The base64 alphabet. -/
def base64Alphabet : List Char :=
  "ABCDEFGHIJKLMNOPQRSTUVWXYZabcdefghijklmnopqrstuvwxyz0123456789+/".data

/-- The base64 character for a 6-bit group. -/
def b64At (n : Nat) : Char := base64Alphabet.getD n 'A'

/-- Base64 encoding of a byte list, as `btoa(String.fromCharCode(...))` in
`main.ts` produces: standard alphabet, `=` padding. -/
def base64Encode : List Nat → String
  | [] => ""
  | [b0] => String.mk [b64At (b0 >>> 2), b64At ((b0 &&& 3) <<< 4), '=', '=']
  | [b0, b1] =>
      String.mk [b64At (b0 >>> 2), b64At (((b0 &&& 3) <<< 4) ||| (b1 >>> 4)),
        b64At ((b1 &&& 15) <<< 2), '=']
  | b0 :: b1 :: b2 :: rest =>
      String.mk [b64At (b0 >>> 2), b64At (((b0 &&& 3) <<< 4) ||| (b1 >>> 4)),
        b64At ((((b1 &&& 15)) <<< 2) ||| (b2 >>> 6)), b64At (b2 &&& 63)] ++ base64Encode rest

/-- Lowercase hexadecimal digit. -/
def hexDigitChar (n : Nat) : Char := "0123456789abcdef".data.getD n '0'

/-- Two-digit lowercase hex of one byte, as
`b.toString(16).padStart(2, "0")` in `db.ts` produces. -/
def hexByte (b : Nat) : List Char := [hexDigitChar (b / 16 % 16), hexDigitChar (b % 16)]

/-- Hex encoding of a byte list. -/
def hexEncode (l : List Nat) : String := String.mk (l.flatMap hexByte)

/-! ## The two password hashing functions of the repository -/

/-- Function `hashPassword` of `main.ts`: base64 of the SHA-256 digest of the UTF-8
encoded password, with no salt or secret. -/
def hashPassword (password : String) : String := base64Encode (sha256 (utf8Encode password))

/-- Function `comparePassword` of `main.ts`: recompute the hash and compare. -/
def comparePassword (password stored : String) : Bool := hashPassword password == stored

/-- Function `hashPassword` of `db.ts`: lowercase hex of the SHA-256 digest of the
UTF-8 encoded password with the fixed salt `my-2d-salt` appended. -/
def dbHashPassword (password : String) : String :=
  hexEncode (sha256 (utf8Encode (password ++ "my-2d-salt")))

/-- Following the words of the spec only: a plain unsalted digest of the
password alone (SHA-256 of the password, base64-encoded as the repository
encodes its digests).  Used to compare the code hash against the claim
that every digest differs from the plain unsalted digest. -/
def plainUnsaltedDigest (password : String) : String :=
  base64Encode (sha256 (utf8Encode password))

/-! ## Token issuer / verifier

`main.ts` signs and verifies tokens with `create` / `verify` from the external
`djwt` library (HS512).  Modelled from the spec: the Token Issuer/Verifier
produces a signed, self-contained, stateless token binding `id`, `username`
and `isAdmin` with a signature computed from a server-held secret by a
keyed-hash signing scheme; `verify` recomputes the signature, rejects on
mismatch or malformed structure, and otherwise returns the decoded claim.
The keyed hash is instantiated with the SHA-256 above; the payload is carried
as an injectively encoded byte list that `jwtVerify` actually decodes. -/

/-- A session claim: the `JWTPayload` interface of `main.ts`. -/
structure JWTPayload where
  id : String
  username : String
  isAdmin : Bool
deriving DecidableEq

/-- Length-prefixed injective encoding of a claim into a list of naturals. -/
def encodeClaim (p : JWTPayload) : List Nat :=
  p.id.data.length :: (p.id.data.map Char.toNat ++
    (p.username.data.length :: (p.username.data.map Char.toNat ++
      [if p.isAdmin then 1 else 0])))

/-- Decoder for `encodeClaim`: reads the two length-prefixed strings and the
admin flag, rejecting any malformed byte list. -/
def decodeClaim (l : List Nat) : Option JWTPayload :=
  match l with
  | [] => none
  | n1 :: rest =>
    let idPart := rest.take n1
    if idPart.length = n1 then
      match rest.drop n1 with
      | [] => none
      | n2 :: rest2 =>
        let userPart := rest2.take n2
        if userPart.length = n2 then
          match rest2.drop n2 with
          | [b] => some ⟨String.mk (idPart.map Char.ofNat), String.mk (userPart.map Char.ofNat),
              b = 1⟩
          | _ => none
        else none
    else none

/-- Modelled from the spec: the keyed-hash signing scheme, instantiated as the
SHA-256 digest of the secret followed by the message. -/
def macSign (secret : String) (msg : List Nat) : List Nat := sha256 (utf8Encode secret ++ msg)

/-- A signed stateless token: the encoded payload together with its
keyed-hash signature. -/
structure Token where
  payloadBytes : List Nat
  sig : List Nat
deriving DecidableEq

/-- Operation `create(header, payload, secret)` of the token library, as the spec
describes it: sign the encoded claim with the server-held secret. -/
def jwtCreate (p : JWTPayload) (secret : String) : Token :=
  ⟨encodeClaim p, macSign secret (encodeClaim p)⟩

/-- Operation `verify(token, secret)` of the token library, as the spec describes it:
recompute the signature over the carried payload, fail on mismatch or on a
malformed payload, otherwise return the decoded claim. -/
def jwtVerify (t : Token) (secret : String) : Option JWTPayload :=
  if t.sig = macSign secret t.payloadBytes then decodeClaim t.payloadBytes else none

/-- The `JWT_SECRET` configuration line of `main.ts`:
`Deno.env.get("JWT_SECRET") || "your-ultra-secure-secret-key"`.  JavaScript
`||` falls through on `undefined` and on the empty string. -/
def jwtSecretOf (env : Option String) : String :=
  match env with
  | some s => if s = "" then "your-ultra-secure-secret-key" else s
  | none => "your-ultra-secure-secret-key"

/-! ## The Deno KV store and the route handlers

The store is modelled as association lists with the most recent write first
(`kvSet` overwrites), matching the lookup semantics of the key-value store,
whose engine internals the spec treats as a given transactional store.  The
two key families of `main.ts` are the primary records `["users", id]` and the
secondary index `["users_by_username", username]`. -/

/-- The `User` record of `main.ts` (the spec calls the `credit` field
`balance`). -/
structure User where
  id : String
  username : String
  passwordHash : String
  credit : JSNum
  isAdmin : Bool
deriving DecidableEq

/-- The relevant KV state: primary records keyed by user id, and the
username index holding the id (`kv.set(usernameKey, { id })`). -/
structure KVState where
  users : List (String × User)
  usersByUsername : List (String × String)
deriving DecidableEq

/-- Operation `kv.set`: overwrite the value at a key. -/
def kvSet (l : List (String × α)) (k : String) (v : α) : List (String × α) :=
  (k, v) :: l.filter (fun p => p.1 ≠ k)

/-- Outcome of `POST /api/auth/register`. -/
inductive RegisterRes where
  | invalidFormat : RegisterRes
  | duplicate : RegisterRes
  | ok : RegisterRes
deriving DecidableEq

/-- The `POST /api/auth/register` handler of `main.ts`.  `username` and
`password` are `Option` to model missing JSON fields (falsy together with the
empty string); `newId` stands for the fresh `crypto.randomUUID()`.  Returns
the HTTP outcome and the post state. -/
def register (st : KVState) (username password : Option String) (newId : String) :
    RegisterRes × KVState :=
  match username, password with
  | some u, some p =>
    if u = "" || p = "" || u.length < 3 || p.length < 6 then (.invalidFormat, st)
    else
      match st.usersByUsername.lookup u with
      | some _ => (.duplicate, st)
      | none =>
        let isFirstUser := st.users.isEmpty
        let newUser : User := ⟨newId, u, hashPassword p, .finite 0, isFirstUser⟩
        (.ok, ⟨kvSet st.users newId newUser, kvSet st.usersByUsername u newId⟩)
  | _, _ => (.invalidFormat, st)

/-- The user object returned by the login route:
`id`, `username`, `credit`, `isAdmin`. -/
structure UserView where
  id : String
  username : String
  credit : JSNum
  isAdmin : Bool
deriving DecidableEq

/-- Outcome of `POST /api/auth/login`. -/
inductive LoginRes where
  | missingFields : LoginRes
  | invalidCredentials : LoginRes
  | ok (token : Token) (user : UserView) : LoginRes
deriving DecidableEq

/-- The `POST /api/auth/login` handler of `main.ts`. -/
def login (st : KVState) (username password : Option String) (secret : String) : LoginRes :=
  match username, password with
  | some u, some p =>
    if u = "" || p = "" then .missingFields
    else
      match st.usersByUsername.lookup u with
      | none => .invalidCredentials
      | some uid =>
        match st.users.lookup uid with
        | none => .invalidCredentials
        | some user =>
          if comparePassword p user.passwordHash then
            .ok (jwtCreate ⟨user.id, user.username, user.isAdmin⟩ secret)
              ⟨user.id, user.username, user.credit, user.isAdmin⟩
          else .invalidCredentials
  | _, _ => .missingFields

/-- Outcome of `POST /api/admin/fill-credit` (after the auth gates).  The
success payload carries the read-back `username` and `credit`, `Option`
because the handler reads them with optional chaining. -/
inductive FillRes where
  | invalidData : FillRes
  | userNotFound : FillRes
  | ok (username : Option String) (credit : Option JSNum) : FillRes
deriving DecidableEq

/-- The `POST /api/admin/fill-credit` handler body of `main.ts`: validate
`!username || typeof amount is not number || amount <= 0`, look up the
username index, then commit the atomic `sum` mutation on the credit of the
primary record (the store is the given transactional engine, so the sum is
modelled as one atomic update of the record; on a missing primary record the
state is left unchanged and the read-back fields are absent). -/
def fillCredit (st : KVState) (username : Option String) (amount : ReqVal) :
    (FillRes × KVState) :=
  match username, amount with
  | some u, .num n =>
    if u = "" || n.leZero then (.invalidData, st)
    else
      match st.usersByUsername.lookup u with
      | none => (.userNotFound, st)
      | some uid =>
        match st.users.lookup uid with
        | some user =>
          let updated : User :=
            ⟨user.id, user.username, user.passwordHash, user.credit.add n, user.isAdmin⟩
          ((.ok (some updated.username) (some updated.credit)),
            ⟨kvSet st.users uid updated, st.usersByUsername⟩)
        | none => (.ok none none, st)
  | some _, .nonNumber => (.invalidData, st)
  | none, _ => (.invalidData, st)

/-- Outcome of `GET /api/user/me`. -/
inductive MeRes where
  | notFound : MeRes
  | ok (id username : String) (credit : JSNum) (isAdmin : Bool) : MeRes
deriving DecidableEq

/-- The `GET /api/user/me` handler of `main.ts`: the id comes from the token
payload, the rest from the stored record. -/
def getMe (st : KVState) (payload : JWTPayload) : MeRes :=
  match st.users.lookup payload.id with
  | none => .notFound
  | some u => .ok payload.id u.username u.credit u.isAdmin

/-! ## The live broadcast hub

`handleWebSocket` keeps a set `clients` of sockets: `onopen` adds the socket,
`onclose` deletes it, and `onerror` only logs.  `broadcastResult` iterates the
set synchronously and calls `send` exactly on the sockets whose `readyState`
is `OPEN`; per the WebSocket standard `send` throws only in the `CONNECTING`
state, and every other delivery failure is asynchronous (it surfaces as a
later error or close event, never as an exception from `send`). -/

/-- WebSocket ready states. -/
def wsConnecting : Nat := 0

/-- The `OPEN` ready state checked by `broadcastResult`. -/
def wsOpen : Nat := 1

/-- One viewer connection: its identity, its ready state at the moment of the
broadcast, and whether the transport will actually deliver a frame handed to
`send` (delivery may fail asynchronously without throwing). -/
structure Conn where
  id : Nat
  readyState : Nat
  deliveryOk : Bool
deriving DecidableEq

/-- Operation `socket.send`: throws `InvalidStateError` in the `CONNECTING` state, and
otherwise hands the frame to the transport, which delivers it only when the
state is `OPEN` and the transport works.  `Except` models the throw. -/
def wsSend (c : Conn) : Except String Bool :=
  if c.readyState = wsConnecting then .error "InvalidStateError"
  else .ok (c.readyState = wsOpen && c.deliveryOk)

/-- The loop body of `broadcastResult`: walk the client set, skip every
connection whose `readyState` is not `OPEN`, call `send` on the rest.  An
exception from `send` would abort the whole loop (there is no try/catch
around it), which the `Except` propagation models.  Returns, per attempted
connection, its id and whether the transport delivered the frame. -/
def broadcastLoop : List Conn → Except String (List (Nat × Bool))
  | [] => .ok []
  | c :: rest =>
    if c.readyState = wsOpen then
      match wsSend c with
      | .error e => .error e
      | .ok delivered =>
        match broadcastLoop rest with
        | .error e => .error e
        | .ok out => .ok ((c.id, delivered) :: out)
    else broadcastLoop rest

/-- Handler `onopen` of `handleWebSocket`: `clients.add(socket)`. -/
def onOpen (clients : Finset Nat) (s : Nat) : Finset Nat := insert s clients

/-- Handler `onclose` of `handleWebSocket`: `clients.delete(socket)`. -/
def onClose (clients : Finset Nat) (s : Nat) : Finset Nat := clients.erase s

/-- Handler `onerror` of `handleWebSocket`: only `console.error`, the set is not
touched. -/
def onError (clients : Finset Nat) (s : Nat) : Finset Nat := clients

/-! ## Interleaved concurrent credit operations

Each in-flight `fill-credit` request suspends at its storage calls: it reads
the username index, then commits one atomic `sum` mutation (the only step
that writes the balance), then reads the record back.  A schedule is any
interleaving of the steps of the concurrent requests; only the atomic
mutation changes the balance, and it is a single indivisible step. -/

/-- One storage step of a fill-credit request. -/
inductive CreditStep where
  | readIndex : CreditStep
  | atomicSum (amount : JSNum) : CreditStep
  | readBack : CreditStep
deriving DecidableEq

/-- The storage steps of one fill-credit request crediting `amount`. -/
def creditOpSteps (amount : ℚ) : List CreditStep :=
  [.readIndex, .atomicSum (.finite amount), .readBack]

/-- Effect of one step on the stored balance: only the atomic sum mutation
writes. -/
def stepBalance (b : JSNum) : CreditStep → JSNum
  | .atomicSum a => b.add a
  | _ => b

/-- Run a schedule of steps against a starting balance. -/
def runSched (b : JSNum) (s : List CreditStep) : JSNum := s.foldl stepBalance b

/-- The finite amounts of the atomic mutations occurring in a schedule. -/
def schedAmounts (s : List CreditStep) : List ℚ :=
  s.filterMap fun st =>
    match st with
    | .atomicSum (.finite a) => some a
    | _ => none

/-- A schedule is finite-only when every atomic mutation in it carries a
finite amount. -/
def FiniteSteps (s : List CreditStep) : Prop :=
  ∀ q ∈ s, ∀ a, q = .atomicSum a → ∃ v : ℚ, a = .finite v

/-! ## Supporting lemmas -/

/-- Sanity anchor for the SHA-256 implementation: the FIPS 180-4 test vector
for the message `abc`. -/
theorem sha256_matches_fips_vector :
    hexEncode (sha256 (utf8Encode "abc")) =
      "ba7816bf8f01cfea414140de5dae2223b00361a396177a9cb410ff61f20015ad" := by decide

/-- Mapping a character list through `Char.toNat` and back through
`Char.ofNat` is the identity. -/
theorem map_ofNat_map_toNat (l : List Char) : (l.map Char.toNat).map Char.ofNat = l := by
  induction l with
  | nil => rfl
  | cons c cs ih => simp [Char.ofNat_toNat, ih]

/-- Composition form of `map_ofNat_map_toNat`. -/
theorem map_ofNat_comp_toNat (l : List Char) : l.map (Char.ofNat ∘ Char.toNat) = l := by
  rw [← List.map_map]
  exact map_ofNat_map_toNat l

/-- The claim decoder inverts the claim encoder, stated on raw character
lists. -/
theorem decodeClaim_raw (idc userc : List Char) (flag : Bool) :
    decodeClaim (idc.length :: (idc.map Char.toNat ++
        (userc.length :: (userc.map Char.toNat ++ [if flag then 1 else 0])))) =
      some ⟨String.mk idc, String.mk userc, flag⟩ := by
  have hidlen : (idc.map Char.toNat).length = idc.length := List.length_map _ _
  have huserlen : (userc.map Char.toNat).length = userc.length := List.length_map _ _
  simp only [decodeClaim]
  rw [List.take_left' hidlen, List.drop_left' hidlen]
  simp only [hidlen, if_true]
  rw [List.take_left' huserlen, List.drop_left' huserlen]
  simp only [huserlen, if_true]
  cases flag <;> simp [map_ofNat_map_toNat, map_ofNat_comp_toNat]

/-- The claim decoder inverts the claim encoder. -/
theorem decodeClaim_encodeClaim (p : JWTPayload) : decodeClaim (encodeClaim p) = some p :=
  decodeClaim_raw p.id.data p.username.data p.isAdmin

/-- Looking up the key just written by `kvSet` yields the written value. -/
theorem lookup_kvSet_self (l : List (String × α)) (k : String) (v : α) :
    (kvSet l k v).lookup k = some v := by
  simp [kvSet, List.lookup]

/-- Running a schedule whose atomic mutations all carry finite amounts from a
finite balance adds up exactly the amounts of the mutations. -/
theorem runSched_finite (s : List CreditStep) :
    ∀ b : ℚ, FiniteSteps s → runSched (.finite b) s = .finite (b + (schedAmounts s).sum) := by
  induction s with
  | nil => intro b _; simp [runSched, schedAmounts]
  | cons q rest ih =>
    intro b hfin
    have hrest : FiniteSteps rest := by
      intro x hx a ha
      exact hfin x (List.mem_cons_of_mem _ hx) a ha
    cases q with
    | readIndex =>
      simpa [runSched, schedAmounts, stepBalance] using ih b hrest
    | readBack =>
      simpa [runSched, schedAmounts, stepBalance] using ih b hrest
    | atomicSum a =>
      obtain ⟨v, rfl⟩ := hfin _ (List.mem_cons_self _ _) a rfl
      have := ih (b + v) hrest
      simpa [runSched, schedAmounts, stepBalance, JSNum.add, add_assoc] using this

/-- The schedule obtained by concatenating the step lists of fill-credit
requests carries exactly their amounts. -/
theorem schedAmounts_join (amounts : List ℚ) :
    schedAmounts ((amounts.map creditOpSteps).flatten) = amounts := by
  induction amounts with
  | nil => simp [schedAmounts]
  | cons a rest ih =>
    simp only [List.map_cons, List.flatten_cons]
    simp [schedAmounts, creditOpSteps] at ih ⊢
    exact ih

/-- Every atomic mutation in the concatenated step lists of fill-credit
requests carries a finite amount. -/
theorem finiteSteps_join (amounts : List ℚ) :
    FiniteSteps ((amounts.map creditOpSteps).flatten) := by
  intro q hq a ha
  rcases List.mem_flatten.mp hq with ⟨l, hl, hql⟩
  rcases List.mem_map.mp hl with ⟨v, _, rfl⟩
  subst ha
  simp only [creditOpSteps, List.mem_cons, List.mem_singleton] at hql
  rcases hql with h | h | h | h
  · cases h
  · injection h with h'
    exact ⟨v, h'⟩
  · cases h
  · exact absurd h (List.not_mem_nil _)

/-! ## Claim theorems -/

/-- Claim C2: for every collection of concurrent fill-credit operations on
the same user starting from balance 0, each crediting a positive amount, and
every interleaving of their storage steps (every interleaving is a
permutation of the concatenated step lists that preserves each operation
order, and the balance result depends only on the multiset of steps), the
final balance is exactly the sum of the credited amounts — no lost
updates. -/
theorem c2_concurrent_credits_no_lost_updates (amounts : List ℚ) (s : List CreditStep)
    (hpos : ∀ a ∈ amounts, 0 < a)
    (hperm : s.Perm ((amounts.map creditOpSteps).flatten)) :
    runSched (.finite 0) s = .finite amounts.sum := by
  have _hpos := hpos
  have hfin : FiniteSteps s := by
    intro q hq a ha
    exact finiteSteps_join amounts q (hperm.mem_iff.mp hq) a ha
  have h1 := runSched_finite s 0 hfin
  have h2 : (schedAmounts s).sum = amounts.sum := by
    have hp : (schedAmounts s).Perm (schedAmounts ((amounts.map creditOpSteps).flatten)) := by
      simpa [schedAmounts] using hperm.filterMap _
    rw [hp.sum_eq, schedAmounts_join]
  rw [h1, h2, zero_add]

/-- Witness for C2: two concurrent credits of 10 under one concrete
interleaving leave the balance at 20. -/
theorem c2_witness :
    runSched (.finite 0)
      [.readIndex, .readIndex, .atomicSum (.finite 10), .readBack,
        .atomicSum (.finite 10), .readBack] = .finite 20 := by
  have h := c2_concurrent_credits_no_lost_updates [10, 10]
    [.readIndex, .readIndex, .atomicSum (.finite 10), .readBack,
      .atomicSum (.finite 10), .readBack]
    (by decide) (by decide)
  norm_num [List.sum_cons, List.sum_nil] at h
  exact h

/-- Claim C3: the broadcast loop skips every connection whose ready state is
not OPEN, never raises, and hands the event to each open connection with an
outcome independent of the outcome of every other connection — one single
delivery failure cannot prevent delivery to the remaining open ones. -/
theorem c3_broadcast_skips_nonopen_and_isolates (clients : List Conn) :
    broadcastLoop clients =
      .ok ((clients.filter fun c => c.readyState == wsOpen).map fun c => (c.id, c.deliveryOk)) := by
  induction clients with
  | nil => rfl
  | cons c rest ih =>
    by_cases h : c.readyState = wsOpen
    · simp [broadcastLoop, wsSend, h, wsOpen, wsConnecting, ih, List.filter_cons]
    · simp [broadcastLoop, h, ih, List.filter_cons]

/-- Counterexample to C4: a connection that fires an error event is NOT
removed from the connection set of the hub — the error handler only logs. -/
theorem c4_counterexample :
    onError ({7} : Finset Nat) 7 = {7} ∧ (7 : Nat) ∈ onError ({7} : Finset Nat) 7 :=
  ⟨rfl, by decide⟩

/-- Amended C4: a viewer connection is removed immediately and
unconditionally on every disconnect (close) event, and disconnecting an
already-removed transport is a harmless no-op; an error event by itself
leaves the connection set unchanged (removal happens only via the close
event that follows). -/
theorem c4_close_removes_error_keeps (clients : Finset Nat) (s t : Nat)
    (ht : t ∉ clients) :
    s ∉ onClose clients s ∧ onError clients s = clients ∧ onClose clients t = clients :=
  ⟨Finset.not_mem_erase s clients, rfl, Finset.erase_eq_of_not_mem ht⟩

/-- Witness for the amended C4 at a concrete connection set. -/
theorem c4_witness :
    (1 : Nat) ∉ onClose ({1, 2} : Finset Nat) 1 ∧
      onError ({1, 2} : Finset Nat) 1 = {1, 2} ∧
      onClose ({1, 2} : Finset Nat) 3 = {1, 2} :=
  c4_close_removes_error_keeps {1, 2} 1 3 (by decide)

/-- Counterexample to C5: the digest produced by the password hashing
function that registration and login actually use (`hashPassword` of
`main.ts`) EQUALS the plain unsalted digest of the password alone, rather
than differing from it; only the unused `db.ts` variant differs. -/
theorem c5_counterexample :
    hashPassword "secret" = plainUnsaltedDigest "secret" ∧
      dbHashPassword "secret" ≠ plainUnsaltedDigest "secret" :=
  ⟨rfl, by decide⟩

/-- Amended C5: the password hashing function is deterministic, but it
incorporates no application-wide secret or salt — for every password the
digest of the `main.ts` `hashPassword` is exactly the plain unsalted SHA-256
digest of the password alone (the salted scheme exists only in the unused
`db.ts` `hashPassword`). -/
theorem c5_deterministic_but_unsalted (p q : String) (hpq : p = q) :
    hashPassword p = hashPassword q ∧ hashPassword p = plainUnsaltedDigest p :=
  ⟨by rw [hpq], rfl⟩

/-- Witness for the amended C5 at a concrete password. -/
theorem c5_witness :
    hashPassword "secret" = hashPassword "secret" ∧
      hashPassword "secret" = plainUnsaltedDigest "secret" :=
  c5_deterministic_but_unsalted "secret" "secret" rfl

/-- Claim C8: verifying a token produced by `issue(claim)` under the same
unchanged secret succeeds and returns a claim equal field-for-field to the
original. -/
theorem c8_token_roundtrip (claim : JWTPayload) (secret : String) :
    jwtVerify (jwtCreate claim secret) secret = some claim := by
  simp [jwtVerify, jwtCreate, decodeClaim_encodeClaim]

/-- Counterexample to C9: with no environment variable set, the signing
secret is the hard-coded in-source constant, and token signing proceeds
under that constant key. -/
theorem c9_counterexample :
    jwtSecretOf none = "your-ultra-secure-secret-key" ∧
      jwtCreate ⟨"id1", "alice", true⟩ (jwtSecretOf none) =
        jwtCreate ⟨"id1", "alice", true⟩ "your-ultra-secure-secret-key" :=
  ⟨rfl, rfl⟩

/-- Amended C9: the token-signing secret is taken from the `JWT_SECRET`
environment variable when that is set and nonempty, but when the variable is
absent or empty the code falls back to the hard-coded in-source constant
`your-ultra-secure-secret-key` and signs under it. -/
theorem c9_env_secret_or_hardcoded_fallback (env : Option String) :
    ((env = none ∨ env = some "") → jwtSecretOf env = "your-ultra-secure-secret-key") ∧
      ∀ s, env = some s → s ≠ "" → jwtSecretOf env = s := by
  constructor
  · rintro (rfl | rfl) <;> simp [jwtSecretOf]
  · rintro s rfl hs
    simp [jwtSecretOf, hs]

/-- Witness for the amended C9: a nonempty deployment secret is used as
given. -/
theorem c9_witness : jwtSecretOf (some "deploy-secret") = "deploy-secret" :=
  (c9_env_secret_or_hardcoded_fallback (some "deploy-secret")).2 "deploy-secret" rfl (by decide)

/-- Concrete store used by the C1 counterexample: a single user alice with
balance 0. -/
def c1State : KVState :=
  ⟨[("id1", ⟨"id1", "alice", "ph", .finite 0, true⟩)], [("alice", "id1")]⟩

/-- Counterexample to C1: NaN and +Infinity are not positive finite numbers,
yet they pass the validation (in JavaScript both NaN <= 0 and Infinity <= 0
are false), so the credit operation succeeds with HTTP 200 instead of
failing with InvalidAmount, corrupting the stored balance to NaN
respectively Infinity. -/
theorem c1_counterexample :
    (fillCredit c1State (some "alice") (.num .nan)).1 = .ok (some "alice") (some .nan) ∧
      (fillCredit c1State (some "alice") (.num .posInf)).1 =
        .ok (some "alice") (some .posInf) :=
  ⟨rfl, rfl⟩

/-- Amended C1: the credit operation fails with InvalidAmount (HTTP 400) for
every amount that is a non-number value or a number comparing less-or-equal
to zero under JavaScript semantics (0, negative numbers, and -Infinity), and
on that failure the whole store — in particular the target user balance — is
unchanged; NaN and +Infinity, however, slip through the validation and are
credited instead of rejected. -/
theorem c1_invalid_amount_rejected_state_unchanged (st : KVState) (username : Option String)
    (amount : ReqVal)
    (h : amount = .nonNumber ∨ ∃ n, amount = .num n ∧ n.leZero = true) :
    fillCredit st username amount = (.invalidData, st) := by
  rcases h with rfl | ⟨n, rfl, hle⟩
  · cases username <;> rfl
  · cases username with
    | none => rfl
    | some u => simp [fillCredit, hle]

/-- Witness for the amended C1: crediting amount 0 is rejected and the store
is untouched. -/
theorem c1_witness :
    fillCredit ⟨[], []⟩ (some "alice") (.num (.finite 0)) = (.invalidData, ⟨[], []⟩) :=
  c1_invalid_amount_rejected_state_unchanged ⟨[], []⟩ (some "alice") (.num (.finite 0))
    (Or.inr ⟨.finite 0, rfl, by decide⟩)

/-- Claim C6: for every stored user and correct password, a successful login
returns the signed token together with the id, username, balance (the
`credit` field) and admin flag of the user. -/
theorem c6_login_returns_token_and_user (st : KVState) (u p uid secret : String) (user : User)
    (hu : u ≠ "") (hp : p ≠ "")
    (hidx : st.usersByUsername.lookup u = some uid)
    (hrec : st.users.lookup uid = some user)
    (hpw : user.passwordHash = hashPassword p) :
    login st (some u) (some p) secret =
      .ok (jwtCreate ⟨user.id, user.username, user.isAdmin⟩ secret)
        ⟨user.id, user.username, user.credit, user.isAdmin⟩ := by
  simp [login, hu, hp, hidx, hrec, comparePassword, hpw]

/-- Witness for C6 at a concrete one-user store. -/
theorem c6_witness :
    login ⟨[("id1", ⟨"id1", "alice", hashPassword "secret1", .finite 0, true⟩)],
        [("alice", "id1")]⟩ (some "alice") (some "secret1") "k" =
      .ok (jwtCreate ⟨"id1", "alice", true⟩ "k") ⟨"id1", "alice", .finite 0, true⟩ :=
  c6_login_returns_token_and_user _ "alice" "secret1" "id1" "k"
    ⟨"id1", "alice", hashPassword "secret1", .finite 0, true⟩
    (by decide) (by decide) rfl rfl rfl

/-- Claim C7: a successful registration stores a user whose admin flag is
exactly "the store held zero users before the call" — true for the
first-ever successful registration — and leaves the store nonempty, so every
subsequent successful registration of a distinct username stores the flag
false (exactly one bootstrap admin). -/
theorem c7_first_registration_bootstraps_admin (st : KVState) (u p newId : String)
    (hu : 3 ≤ u.length) (hp : 6 ≤ p.length)
    (hfree : st.usersByUsername.lookup u = none) :
    (register st (some u) (some p) newId).1 = .ok ∧
      (register st (some u) (some p) newId).2.users.lookup newId =
        some ⟨newId, u, hashPassword p, .finite 0, st.users.isEmpty⟩ ∧
      (register st (some u) (some p) newId).2.users.isEmpty = false := by
  have hu' : u ≠ "" := by
    intro h
    rw [h] at hu
    simp at hu
  have hp' : p ≠ "" := by
    intro h
    rw [h] at hp
    simp at hp
  refine ⟨?_, ?_, ?_⟩ <;>
    simp [register, hu', hp', Nat.not_lt.mpr hu, Nat.not_lt.mpr hp, hfree,
      lookup_kvSet_self, kvSet]

/-- Witness for C7: registering into an empty store succeeds and stores the
bootstrap admin. -/
theorem c7_witness :
    (register ⟨[], []⟩ (some "alice") (some "secret1") "id1").1 = .ok ∧
      (register ⟨[], []⟩ (some "alice") (some "secret1") "id1").2.users.lookup "id1" =
        some ⟨"id1", "alice", hashPassword "secret1", .finite 0, true⟩ ∧
      (register ⟨[], []⟩ (some "alice") (some "secret1") "id1").2.users.isEmpty = false := by
  have h := c7_first_registration_bootstraps_admin ⟨[], []⟩ "alice" "secret1" "id1"
    (by decide) (by decide) rfl
  simpa using h

/-- Claim C10: a successful registration initializes the stored balance to
exactly 0, and both the me-endpoint and a subsequent login against the post
state report that zero balance before any credit operation. -/
theorem c10_fresh_user_has_zero_balance (st : KVState) (u p newId secret : String)
    (hu : 3 ≤ u.length) (hp : 6 ≤ p.length)
    (hfree : st.usersByUsername.lookup u = none) :
    (register st (some u) (some p) newId).2.users.lookup newId =
        some ⟨newId, u, hashPassword p, .finite 0, st.users.isEmpty⟩ ∧
      getMe (register st (some u) (some p) newId).2 ⟨newId, u, st.users.isEmpty⟩ =
        .ok newId u (.finite 0) st.users.isEmpty ∧
      login (register st (some u) (some p) newId).2 (some u) (some p) secret =
        .ok (jwtCreate ⟨newId, u, st.users.isEmpty⟩ secret)
          ⟨newId, u, .finite 0, st.users.isEmpty⟩ := by
  have hu' : u ≠ "" := by
    intro h
    rw [h] at hu
    simp at hu
  have hp' : p ≠ "" := by
    intro h
    rw [h] at hp
    simp at hp
  have hreg : register st (some u) (some p) newId =
      (.ok, ⟨kvSet st.users newId ⟨newId, u, hashPassword p, .finite 0, st.users.isEmpty⟩,
        kvSet st.usersByUsername u newId⟩) := by
    simp [register, hu', hp', Nat.not_lt.mpr hu, Nat.not_lt.mpr hp, hfree]
  rw [hreg]
  refine ⟨lookup_kvSet_self _ _ _, ?_, ?_⟩
  · simp [getMe, lookup_kvSet_self]
  · simp [login, hu', hp', lookup_kvSet_self, comparePassword]

/-- Witness for C10: a fresh registration into an empty store reports zero
balance through the stored record, the me endpoint and login. -/
theorem c10_witness :
    (register ⟨[], []⟩ (some "alice") (some "secret1") "id1").2.users.lookup "id1" =
        some ⟨"id1", "alice", hashPassword "secret1", .finite 0, true⟩ ∧
      getMe (register ⟨[], []⟩ (some "alice") (some "secret1") "id1").2 ⟨"id1", "alice", true⟩ =
        .ok "id1" "alice" (.finite 0) true ∧
      login (register ⟨[], []⟩ (some "alice") (some "secret1") "id1").2
          (some "alice") (some "secret1") "k" =
        .ok (jwtCreate ⟨"id1", "alice", true⟩ "k") ⟨"id1", "alice", .finite 0, true⟩ := by
  have h := c10_fresh_user_has_zero_balance ⟨[], []⟩ "alice" "secret1" "id1" "k"
    (by decide) (by decide) rfl
  simpa using h
